import Mathlib

/-!
Shallow embedding of the Tag Input Control core: the Tag value object with its
locale-preference ranking, and the TagManagerService operations (search with
resolution / deduplication, attach, detach) together with an abstract model of
the external backend the service calls.

Conventions of the embedding:
- Optional TypeScript fields are modelled with Option; JavaScript strict
  equality on two optional ids makes two absent values compare equal, which is
  exactly the Option equality used here.
- JavaScript string helpers that the source uses (toLowerCase, the first cell
  of split, the contains filter of the query language) are implemented as
  executable functions over character lists.
- The backend is external to the repository; it is modelled as the tables the
  queries read plus the outcome of each writing call.  Transport failures are
  modelled on the relationship POST and DELETE calls, where a claim depends on
  them.
-/

namespace TagInput

/-- JavaScript toLowerCase as the source applies it to locale strings. -/
def jsToLower (s : String) : String := String.mk (s.data.map Char.toLower)

/-- The first cell of a JavaScript split on a dash: the text before the first
dash, or the whole string when no dash occurs. -/
def jsSplitHead (s : String) : String :=
  String.mk (s.data.takeWhile (fun c => c ≠ '-'))

/-- Executable containment test of one character list inside another. -/
def charSeqContains : List Char → List Char → Bool
  | needle, [] => needle.isEmpty
  | needle, x :: xs => needle.isPrefixOf (x :: xs) || charSeqContains needle xs

/-- The contains filter of the backend query language: substring containment. -/
def jsContains (s sub : String) : Bool := charSeqContains sub.data s.data

/-- A tag translation record (class TagTranslation of the source); present in
the data model but not exercised by any verified operation. -/
structure TagTranslation where
  id : Option String
  tagId : String
  value : String
  name : String
  lcid : String
deriving DecidableEq

/-- The Tag value object (class Tag of the source).  The translations array is
left unassigned by the source constructor, hence Option; scope is Option
because the translation search maps rows through a column the query never
selected, leaving the field absent. -/
structure Tag where
  id : Option String
  value : String
  name : String
  scope : Option String
  lcid : String
  recordId : Option String
  translations : Option (List TagTranslation)
  preference : Nat
  persisted : Bool
  originallcid : Option String
deriving DecidableEq

/-- Tag.CalculatePreference: rank 1 on an exact lcid match, 2 when the
language subtag (text before the first dash) matches, 3 otherwise.  The tag
lcid was lower-cased by the constructor; userlcid is compared as given. -/
def Tag.CalculatePreference (t : Tag) (userlcid : String) : Tag :=
  if t.lcid = userlcid then { t with preference := 1 }
  else if jsSplitHead t.lcid = jsSplitHead userlcid then { t with preference := 2 }
  else { t with preference := 3 }

/-- The Tag constructor: mirrors name into value, lower-cases the lcid and
computes the preference index against userlcid. -/
def Tag.make (name lcid : String) (scope : Option String) (userlcid : String)
    (persisted : Bool) (tagId : Option String) (recordId : Option String) : Tag :=
  Tag.CalculatePreference
    { id := tagId, value := name, name := name, scope := scope,
      lcid := jsToLower lcid, recordId := recordId, translations := none,
      preference := 0, persisted := persisted, originallcid := none } userlcid

/-- Tag.Translate: swaps in the translated name, stashes the previous lcid
into originallcid, lower-cases the new lcid and recomputes the preference. -/
def Tag.Translate (t : Tag) (name lcid userlcid : String) : Tag :=
  Tag.CalculatePreference
    { t with
      name := name, value := name, originallcid := some t.lcid,
      lcid := jsToLower lcid } userlcid

/-- The Language value object (class Language of the source); the backend id
column can be absent on a malformed row, hence Option. -/
structure Language where
  id : Option String
  lcid : String
  code : String
  name : String
deriving DecidableEq

/-- TagManagerService.SetPreferenceOrder: the sort comparator over preference
ranks.  The null guard of the source cannot fire on elements of a list and is
therefore dropped. -/
def SetPreferenceOrder (tag1 tag2 : Tag) : Int :=
  if tag1.preference > tag2.preference then 1
  else if tag1.preference < tag2.preference then -1
  else 0

/-- Insert a tag into an already sorted list before the first element it does
not have to follow; the right fold of this insertion is a stable ascending
sort, the behaviour ECMAScript guarantees for Array.sort with the
SetPreferenceOrder comparator. -/
def sortInsert (x : Tag) : List Tag → List Tag
  | [] => [x]
  | y :: ys => if SetPreferenceOrder x y ≤ 0 then x :: y :: ys else y :: sortInsert x ys

/-- Stable ascending sort by preference rank, modelling
tags.concat(translatedTags).sort(this.SetPreferenceOrder). -/
def sortByPreference (l : List Tag) : List Tag := l.foldr sortInsert []

/-- One step of the reduce inside TagManagerService.SearchByName: drop the
candidate when an attached tag has the same id, or when the growing list
already holds an entry with the same name or the same id; append otherwise.
Strict JavaScript equality on the optional ids makes two absent ids compare
equal. -/
def resolveFold (addedTags : List Tag) (acc : List Tag) (item : Tag) : List Tag :=
  if (addedTags.find? (fun i => i.id == item.id)).isSome then acc
  else if (acc.find? (fun e => e.name == item.name || e.id == item.id)).isSome then acc
  else acc ++ [item]

/-- The resolution / deduplication step of SearchByName: concatenate fresh and
translated tags, stable-sort ascending by preference, then fold left. -/
def ResolveStep (addedTags tags translatedTags : List Tag) : List Tag :=
  (sortByPreference (tags ++ translatedTags)).foldl (resolveFold addedTags) []

/-- Pairwise distinctness of both ids and names, the invariant the reduce
maintains on its accumulator. -/
def PairwiseDistinct (l : List Tag) : Prop :=
  l.Pairwise (fun a b => a.id ≠ b.id ∧ a.name ≠ b.name)

/-- The amended preference specification of claim C4: only the tag locale is
case-normalized; the viewer locale is compared exactly as given. -/
def amendedPreferenceRank (tagLcid viewerLcid : String) : Nat :=
  if jsToLower tagLcid = viewerLcid then 1
  else if jsSplitHead (jsToLower tagLcid) = jsSplitHead viewerLcid then 2
  else 3

/-- The fresh tag of claim C1. -/
def c1FreshTag : Tag := Tag.make "Sales" "en-us" (some "default") "es-mx" true (some "A") none

/-- The translated tag of claim C1, mapped the way the translation search maps
rows: the parent tag id becomes the id and the scope column is absent. -/
def c1TranslatedTag : Tag := Tag.make "Ventas" "es-mx" none "es-mx" true (some "A") none

/-- First candidate of the C9 counterexample: no id, name Alpha. -/
def c9FirstTag : Tag := Tag.make "Alpha" "en-us" (some "skills") "en-us" true none none

/-- Second candidate of the C9 counterexample: no id, name Beta. -/
def c9SecondTag : Tag := Tag.make "Beta" "en-us" (some "skills") "en-us" true none none

/-- A row of the eax_tag table as the backend returns it; the id column can be
absent. -/
structure TagRecord where
  eax_name : String
  eax_languagelcid : String
  eax_scope : String
  eax_tagid : Option String
deriving DecidableEq

/-- A row of the eax_tagtranslation table with the expanded parent tag id,
absent when the parent lookup did not resolve. -/
structure TranslationRecord where
  eax_name : String
  eax_languagelcid : String
  eax_tagscope : String
  parentTagId : Option String
deriving DecidableEq

/-- A row of the eax_language table. -/
structure LanguageRecord where
  eax_languageid : Option String
  eax_lcid : String
  eax_code : String
  eax_name : String
deriving DecidableEq

/-- A joined row of the attached-tags fetch query: the tag columns plus the
outer-joined translation columns.  The translation lcid column is only read
when the translation name is present; rows without a translation carry the
empty string there. -/
structure AttachedRecord where
  tagName : String
  tagLcid : String
  tagScope : String
  tagId : Option String
  translationName : Option String
  translationLcid : String
deriving DecidableEq

/-- The first relationship-metadata row the metadata endpoint returns. -/
structure RelMeta where
  schemaName : Option String
  intersectEntityName : Option String
deriving DecidableEq

/-- The backend requests the service issues, recorded so that frame and
effect claims can state which calls were made. -/
inductive BackendCall where
  | retrieveTags (nameFilter scope : String)
  | retrieveTranslations (nameFilter scope lcid code : String)
  | retrieveTagByName (loweredName : String)
  | retrieveAttached (entityName intersect entityId scope lcid : String)
  | createTag (name scope : String)
  | relate (primaryId relatedId primarySet relationshipName relatedSet : String)
  | deleteRef (entitySet entityId relationshipName tagId : String)
  | retrieveLanguages (lcid : String)
  | getEntityMetadata (entityName : String)
  | getRelationshipMetadata (entityName : String)
deriving DecidableEq

/-- Errors of the service layer: CustomError carrying its resource key,
TagManagerServiceError wrapping an inner error, a transport failure of the
backend, and the JavaScript TypeError raised by dereferencing a null array. -/
inductive SvcError where
  | custom (key : String)
  | service (key : String) (inner : SvcError)
  | transport
  | typeError
deriving DecidableEq

/-- The abstract backend: the tables the queries read plus the outcome of each
writing call.  The two relationship POST sites and the DELETE site each have
their own outcome; a Sum-style Except models a transport rejection. -/
structure Backend where
  tags : List TagRecord
  translations : List TranslationRecord
  languages : List LanguageRecord
  attachedRecords : List AttachedRecord
  createTagResult : Option String
  relateLanguageResponse : Except Unit Nat
  relateTagResponse : Except Unit Nat
  deleteResponse : Except Unit Nat
  entitySetNameResult : Option String
  relationships : Option (List RelMeta)

/-- The mutable fields of TagManagerService together with the configuration
its constructor stores, plus the JavaScript global window.name that the Add
method reads through the unbound identifier name of the source. -/
structure ServiceState where
  scope : String
  languageLCID : String
  languageCode : String
  entityName : String
  entityId : Option String
  crmHost : String
  webApiBasePath : String
  entitySetName : Option String
  manyToManyRelationshipName : Option String
  intersectEntityName : Option String
  addedTags : Option (List Tag)
  windowName : String

/-- Outcome of a service operation: the state after the call (mutations made
before a throw persist, as in JavaScript), the backend calls issued, and the
result or error. -/
structure OpResult (α : Type) where
  state : ServiceState
  calls : List BackendCall
  result : Except SvcError α

/-- The TagManagerService constructor: lower-cases the user LCID, derives the
language code from its first subtag, and stores the relationship and
intersect-entity overrides only when nonempty. -/
def TagManagerService.init (scope languageLCID entityName : String)
    (entityId : Option String)
    (crmHost manyToManyRelationshipName intersectEntityName webApiBasePath
      windowName : String) : ServiceState :=
  { scope := scope,
    languageLCID := jsToLower languageLCID,
    languageCode := jsSplitHead (jsToLower languageLCID),
    entityName := entityName,
    entityId := entityId,
    crmHost := crmHost,
    webApiBasePath := webApiBasePath,
    entitySetName := none,
    manyToManyRelationshipName :=
      if manyToManyRelationshipName ≠ "" then some manyToManyRelationshipName else none,
    intersectEntityName :=
      if intersectEntityName ≠ "" then some intersectEntityName else none,
    addedTags := none,
    windowName := windowName }

/-- TagManagerService.GetByName: a top(1) query on eax_tag filtered only by
the lower-cased name; neither the scope nor the language appear in the
filter, although the doc comment of the source promises all three. -/
def TagManagerService.GetByName (b : Backend) (s : ServiceState) (name : String) :
    List BackendCall × Option Tag :=
  ([BackendCall.retrieveTagByName (jsToLower name)],
    match (b.tags.filter (fun r => r.eax_name == jsToLower name)).take 1 with
    | [] => none
    | e :: _ =>
        some (Tag.make e.eax_name e.eax_languagelcid (some e.eax_scope)
          s.languageLCID true e.eax_tagid none))

/-- TagManagerService.GetLanguageByLCID: a top(1) query on eax_language by
exact lcid. -/
def TagManagerService.GetLanguageByLCID (b : Backend) (lcid : String) :
    List BackendCall × Option Language :=
  ([BackendCall.retrieveLanguages lcid],
    match (b.languages.filter (fun r => r.eax_lcid == lcid)).take 1 with
    | [] => none
    | e :: _ => some { id := e.eax_languageid, lcid := e.eax_lcid,
                       code := e.eax_code, name := e.eax_name })

/-- TagManagerService.LoadEntityMetadata: resolves the entity set name and,
when no relationship override was configured, the many-to-many relationship
metadata; a CustomError is thrown when either is missing, with the falsiness
checks of the source (an empty schema or intersect name also fails). -/
def TagManagerService.LoadEntityMetadata (b : Backend) (s : ServiceState) :
    OpResult Unit :=
  match b.entitySetNameResult with
  | none =>
      { state := { s with entitySetName := none },
        calls := [BackendCall.getEntityMetadata s.entityName],
        result := Except.error (.custom "ErrEntitySetNotFoundKey") }
  | some esn =>
      let s1 := { s with entitySetName := some esn }
      if s1.manyToManyRelationshipName = none then
        let calls := [BackendCall.getEntityMetadata s.entityName,
          BackendCall.getRelationshipMetadata s.entityName]
        match b.relationships with
        | none =>
            { state := s1, calls := calls,
              result := Except.error (.custom "ErrManyToManyRelationshipNotFoundKey") }
        | some [] =>
            { state := s1, calls := calls,
              result := Except.error (.custom "ErrManyToManyRelationshipNotFoundKey") }
        | some (r :: _) =>
            if r.schemaName.getD "" = "" ∨ r.intersectEntityName.getD "" = "" then
              { state := s1, calls := calls,
                result := Except.error (.custom "ErrManyToManyRelationshipNotFoundKey") }
            else
              { state := { s1 with
                  manyToManyRelationshipName := r.schemaName,
                  intersectEntityName := r.intersectEntityName },
                calls := calls, result := Except.ok () }
      else
        { state := s1, calls := [BackendCall.getEntityMetadata s.entityName],
          result := Except.ok () }

/-- The lazy metadata resolution guard that Add and Remove share:
load the metadata only while the entity set name is still unknown. -/
def TagManagerService.ensureMetadata (b : Backend) (s : ServiceState) : OpResult Unit :=
  if s.entitySetName = none then TagManagerService.LoadEntityMetadata b s
  else { state := s, calls := [], result := Except.ok () }

/-- TagManagerService.GetAllByRecordId: lazily resolves metadata when the
intersect entity is unknown, fetches the joined attached rows, maps them to
tags (translated in place when a translation row in another locale exists)
and stores the list as the attached set. -/
def TagManagerService.GetAllByRecordId (b : Backend) (s : ServiceState) :
    OpResult (List Tag) :=
  let step :=
    if s.intersectEntityName.getD "" = "" then TagManagerService.LoadEntityMetadata b s
    else { state := s, calls := [], result := Except.ok () }
  match step.result with
  | Except.error e =>
      { state := step.state, calls := step.calls,
        result := Except.error (.service "ErrGetAllTagsByRecordKey" e) }
  | Except.ok _ =>
      let s1 := step.state
      let tags := b.attachedRecords.map (fun t =>
        let tag := Tag.make t.tagName t.tagLcid (some t.tagScope)
          s1.languageLCID true t.tagId s1.entityId
        let translatedName := t.translationName.getD ""
        if translatedName ≠ "" ∧ tag.lcid ≠ s1.languageLCID then
          tag.Translate translatedName t.translationLcid s1.languageLCID
        else tag)
      { state := { s1 with addedTags := some tags },
        calls := step.calls ++
          [BackendCall.retrieveAttached s1.entityName
            (s1.intersectEntityName.getD "undefined") (s1.entityId.getD "undefined")
            s1.scope s1.languageLCID],
        result := Except.ok tags }

/-- TagManagerService.SearchTranslationsByName: queries translations whose
name contains the filter, whose tag scope matches, and whose lcid is the user
LCID or contains the language code; each row maps to a Tag whose id is the
parent tag id and whose scope is absent (the source reads the unselected
eax_scope column of the row). -/
def TagManagerService.SearchTranslationsByName (b : Backend) (s : ServiceState)
    (name : String) : List BackendCall × List Tag :=
  ([BackendCall.retrieveTranslations name s.scope s.languageLCID s.languageCode],
    (b.translations.filter (fun r =>
      jsContains r.eax_name name && r.eax_tagscope == s.scope &&
        (r.eax_languagelcid == s.languageLCID ||
          jsContains r.eax_languagelcid s.languageCode))).map (fun e =>
      Tag.make e.eax_name e.eax_languagelcid none s.languageLCID true e.parentTagId none))

/-- TagManagerService.SearchByName: initializes the attached set when it is
still null, queries tags and translations by name, and resolves the combined
candidate list through the sort-then-reduce step against the attached set. -/
def TagManagerService.SearchByName (b : Backend) (s : ServiceState) (name : String) :
    OpResult (List Tag) :=
  let step :=
    match s.addedTags with
    | none => TagManagerService.GetAllByRecordId b s
    | some l => { state := s, calls := [], result := Except.ok l }
  match step.result with
  | Except.error e =>
      { state := step.state, calls := step.calls,
        result := Except.error (.service "ErrSearchTagsKey" e) }
  | Except.ok _ =>
      let s1 := step.state
      let freshTags := (b.tags.filter (fun r =>
        jsContains r.eax_name name && r.eax_scope == s.scope)).map (fun e =>
          Tag.make e.eax_name e.eax_languagelcid (some e.eax_scope)
            s1.languageLCID true e.eax_tagid none)
      let tr := TagManagerService.SearchTranslationsByName b s1 name
      { state := s1,
        calls := step.calls ++ [BackendCall.retrieveTags name s.scope] ++ tr.1,
        result := Except.ok (ResolveStep (s1.addedTags.getD []) freshTags tr.2) }

/-- TagManagerService.Create: creates the tag record (failing when the
returned id is falsy), resolves the language record of the user LCID (failing
when absent or without id), links the new tag to that language, and returns
the new Tag instance. -/
def TagManagerService.Create (b : Backend) (s : ServiceState) (tagName : String) :
    List BackendCall × Except SvcError Tag :=
  if b.createTagResult.getD "" = "" then
    ([BackendCall.createTag tagName s.scope],
      Except.error (.custom "ErrTagCreationKey"))
  else
    let addedTagId := b.createTagResult.getD ""
    let g := TagManagerService.GetLanguageByLCID b s.languageLCID
    match g.2 with
    | none =>
        ([BackendCall.createTag tagName s.scope] ++ g.1,
          Except.error (.custom "ErrTagCreatedLCIDNotFoundKey"))
    | some language =>
        if language.id.getD "" = "" then
          ([BackendCall.createTag tagName s.scope] ++ g.1,
            Except.error (.custom "ErrTagCreatedLCIDNotFoundKey"))
        else
          let calls := [BackendCall.createTag tagName s.scope] ++ g.1 ++
            [BackendCall.relate addedTagId (language.id.getD "")
              "eax_tags" "eax_Language" "eax_languages"]
          match b.relateLanguageResponse with
          | Except.error _ => (calls, Except.error .transport)
          | Except.ok st =>
              if st == 204 then
                (calls, Except.ok (Tag.make tagName s.languageLCID (some s.scope)
                  s.languageLCID false (some addedTagId) s.entityId))
              else
                (calls, Except.error (.custom "ErrTagCreatedLanguageNotSetKey"))

/-- TagManagerService.Add: lazily resolves metadata, then either takes the
selected tag when an id was passed, or looks an existing tag up by the
JavaScript global window.name (the unbound identifier name of the source, not
the tagName parameter) and creates one when the lookup id is falsy; finally
links the tag to the record, marks it persisted and appends it to the
attached set.  Every failure is wrapped in a TagManagerServiceError. -/
def TagManagerService.Add (b : Backend) (s : ServiceState) (tagName : String)
    (tagId : Option String) : OpResult Tag :=
  let step := TagManagerService.ensureMetadata b s
  match step.result with
  | Except.error e =>
      { state := step.state, calls := step.calls,
        result := Except.error (.service "ErrTagCreationRelationshipKey" e) }
  | Except.ok _ =>
      let s1 := step.state
      let resolved : List BackendCall × Except SvcError Tag :=
        match tagId with
        | some tid =>
            ([], Except.ok (Tag.make tagName s1.languageLCID (some s1.scope)
              s1.languageLCID false (some tid) s1.entityId))
        | none =>
            let g := TagManagerService.GetByName b s1 s1.windowName
            match g.2 with
            | some t =>
                if t.id.getD "" = "" then
                  let c := TagManagerService.Create b s1 tagName
                  (g.1 ++ c.1, c.2)
                else (g.1, Except.ok t)
            | none =>
                let c := TagManagerService.Create b s1 tagName
                (g.1 ++ c.1, c.2)
      match resolved.2 with
      | Except.error e =>
          { state := s1, calls := step.calls ++ resolved.1,
            result := Except.error (.service "ErrTagCreationRelationshipKey" e) }
      | Except.ok t =>
          if t.id.getD "" = "" then
            { state := s1, calls := step.calls ++ resolved.1,
              result := Except.error
                (.service "ErrTagCreationRelationshipKey" (.custom "ErrTagCreationKey")) }
          else
            let calls := step.calls ++ resolved.1 ++
              [BackendCall.relate (s1.entityId.getD "undefined") (t.id.getD "")
                (s1.entitySetName.getD "undefined")
                (s1.manyToManyRelationshipName.getD "undefined") "eax_tags"]
            match b.relateTagResponse with
            | Except.error _ =>
                { state := s1, calls := calls,
                  result := Except.error
                    (.service "ErrTagCreationRelationshipKey" .transport) }
            | Except.ok st =>
                if st == 204 then
                  let t2 := { t with persisted := true }
                  match s1.addedTags with
                  | none =>
                      { state := s1, calls := calls,
                        result := Except.error
                          (.service "ErrTagCreationRelationshipKey" .typeError) }
                  | some l =>
                      { state := { s1 with addedTags := some (l ++ [t2]) },
                        calls := calls, result := Except.ok t2 }
                else
                  { state := s1, calls := calls,
                    result := Except.error (.service "ErrTagCreationRelationshipKey"
                      (.custom "ErrTagRelationshipKey")) }

/-- TagManagerService.Remove: when the record id and the tag id are present,
lazily resolves metadata, issues the relationship DELETE, filters the
attached set by id and reports whether the response status was 204; when
either id is missing it returns false with no backend call. -/
def TagManagerService.Remove (b : Backend) (s : ServiceState) (tagId : Option String) :
    OpResult Bool :=
  match s.entityId, tagId with
  | some eid, some tid =>
      let step := TagManagerService.ensureMetadata b s
      match step.result with
      | Except.error e =>
          { state := step.state, calls := step.calls,
            result := Except.error (.service "ErrTagRemovalKey" e) }
      | Except.ok _ =>
          let s1 := step.state
          let calls := step.calls ++
            [BackendCall.deleteRef (s1.entitySetName.getD "undefined") eid
              (s1.manyToManyRelationshipName.getD "undefined") tid]
          match b.deleteResponse with
          | Except.error _ =>
              { state := s1, calls := calls,
                result := Except.error (.service "ErrTagRemovalKey" .transport) }
          | Except.ok st =>
              match s1.addedTags with
              | none =>
                  { state := s1, calls := calls,
                    result := Except.error (.service "ErrTagRemovalKey" .typeError) }
              | some l =>
                  { state := { s1 with
                      addedTags := some (l.filter (fun i => i.id != some tid)) },
                    calls := calls, result := Except.ok (st == 204) }
  | _, _ => { state := s, calls := [], result := Except.ok false }

/-- A ready service state for the concrete instances: metadata resolved,
attached set initialized and empty, viewer locale en-us, scope skills, and an
empty window.name (the usual browser value). -/
def readyState : ServiceState :=
  { scope := "skills", languageLCID := "en-us", languageCode := "en",
    entityName := "account", entityId := some "R1", crmHost := "https://host",
    webApiBasePath := "/api/data/v9.1", entitySetName := some "accounts",
    manyToManyRelationshipName := some "rel_tags", intersectEntityName := some "ix",
    addedTags := some [], windowName := "" }

/-- A backend for the concrete instances: one tag record whose name, scope
and locale all match the ready state exactly, one language record for the
viewer locale, and successful write responses. -/
def readyBackend : Backend :=
  { tags := [{ eax_name := "sales", eax_languagelcid := "en-us",
               eax_scope := "skills", eax_tagid := some "T1" }],
    translations := [],
    languages := [{ eax_languageid := some "L1", eax_lcid := "en-us",
                    eax_code := "en", eax_name := "English" }],
    attachedRecords := [],
    createTagResult := some "T9",
    relateLanguageResponse := Except.ok 204,
    relateTagResponse := Except.ok 204,
    deleteResponse := Except.ok 204,
    entitySetNameResult := some "accounts",
    relationships := some [] }

/-- An attached tag with id X used by the Remove instances. -/
def c8OldTag : Tag := Tag.make "Old" "en-us" (some "skills") "en-us" true (some "X") none

/-- The Remove instance state: the ready state with one attached tag. -/
def c8State : ServiceState := { readyState with addedTags := some [c8OldTag] }

theorem resolveFold_cases (added acc : List Tag) (item : Tag) :
    resolveFold added acc item = acc ∨
      (resolveFold added acc item = acc ++ [item] ∧
        added.find? (fun i => i.id == item.id) = none ∧
        acc.find? (fun e => e.name == item.name || e.id == item.id) = none) := by
  unfold resolveFold
  by_cases h1 : (added.find? (fun i => i.id == item.id)).isSome
  · left; rw [if_pos h1]
  · by_cases h2 : (acc.find? (fun e => e.name == item.name || e.id == item.id)).isSome
    · left; rw [if_neg h1, if_pos h2]
    · right
      refine ⟨?_, Option.not_isSome_iff_eq_none.mp h1, Option.not_isSome_iff_eq_none.mp h2⟩
      rw [if_neg h1, if_neg h2]

theorem resolveFold_pairwise (added acc : List Tag) (item : Tag)
    (h : PairwiseDistinct acc) : PairwiseDistinct (resolveFold added acc item) := by
  rcases resolveFold_cases added acc item with hc | ⟨hc, _, hfind⟩
  · rw [hc]; exact h
  · rw [hc]
    unfold PairwiseDistinct at h ⊢
    rw [List.pairwise_append]
    refine ⟨h, List.pairwise_singleton _ _, ?_⟩
    intro a ha b hb
    rw [List.mem_singleton] at hb
    subst hb
    have hfa := List.find?_eq_none.mp hfind a ha
    simp only [Bool.or_eq_true, beq_iff_eq, not_or] at hfa
    exact ⟨hfa.2, hfa.1⟩

theorem foldl_resolveFold_pairwise (added l : List Tag) :
    ∀ acc, PairwiseDistinct acc → PairwiseDistinct (l.foldl (resolveFold added) acc) := by
  induction l with
  | nil => intro acc h; exact h
  | cons x xs ih => intro acc h; exact ih _ (resolveFold_pairwise added acc x h)

theorem resolveFold_avoids (added acc : List Tag) (item : Tag)
    (h : ∀ t ∈ acc, ∀ a ∈ added, t.id ≠ a.id) :
    ∀ t ∈ resolveFold added acc item, ∀ a ∈ added, t.id ≠ a.id := by
  rcases resolveFold_cases added acc item with hc | ⟨hc, hadd, _⟩
  · rw [hc]; exact h
  · rw [hc]
    intro t ht a ha
    rcases List.mem_append.mp ht with h1 | h1
    · exact h t h1 a ha
    · rw [List.mem_singleton] at h1
      subst h1
      have hfa := List.find?_eq_none.mp hadd a ha
      simp only [beq_iff_eq] at hfa
      exact fun he => hfa he.symm

theorem foldl_resolveFold_avoids (added l : List Tag) :
    ∀ acc, (∀ t ∈ acc, ∀ a ∈ added, t.id ≠ a.id) →
      ∀ t ∈ l.foldl (resolveFold added) acc, ∀ a ∈ added, t.id ≠ a.id := by
  induction l with
  | nil => intro acc h; exact h
  | cons x xs ih => intro acc h; exact ih _ (resolveFold_avoids added acc x h)

/-- C1: with fresh tag Sales (en-us, id A) and translated tag Ventas (es-mx,
parent id A), viewer locale es-mx and an empty attached set, the resolution
step returns exactly the rank-1 entry Ventas for id A: the stable ascending
sort on preference runs before deduplication, so Ventas wins although Sales
precedes it in concatenation order. -/
theorem c1_resolution_prefers_viewer_locale :
    ResolveStep [] [c1FreshTag] [c1TranslatedTag] = [c1TranslatedTag] ∧
    c1TranslatedTag.id = some "A" ∧ c1TranslatedTag.name = "Ventas" ∧
    c1TranslatedTag.preference = 1 ∧ c1FreshTag.preference = 3 :=
  ⟨rfl, rfl, rfl, rfl, rfl⟩

/-- C2: for all inputs, no two entries of the resolution step output share an
identifier and no two share a display name. -/
theorem c2_output_has_no_duplicate_ids_or_names (addedTags tags translatedTags : List Tag) :
    (ResolveStep addedTags tags translatedTags).Pairwise (fun a b => a.id ≠ b.id) ∧
    (ResolveStep addedTags tags translatedTags).Pairwise (fun a b => a.name ≠ b.name) := by
  have h := foldl_resolveFold_pairwise addedTags
    (sortByPreference (tags ++ translatedTags)) [] List.Pairwise.nil
  exact ⟨h.imp (fun hab => hab.1), h.imp (fun hab => hab.2)⟩

/-- C3: for all inputs, no entry of the resolution step output carries an
identifier equal to the identifier of any already-attached tag. -/
theorem c3_output_avoids_attached_ids (addedTags tags translatedTags : List Tag) :
    ∀ t ∈ ResolveStep addedTags tags translatedTags, ∀ a ∈ addedTags, t.id ≠ a.id := by
  exact foldl_resolveFold_avoids addedTags (sortByPreference (tags ++ translatedTags)) []
    (by intro t ht; exact absurd ht (List.not_mem_nil t))

/-- Witness for C3 at a concrete input: the candidate with id R survives
resolution against an attached tag with id B, and their ids differ. -/
theorem c3_output_avoids_attached_ids_witness :
    (Tag.make "Red" "en-us" (some "colors") "en-us" true (some "R") none).id ≠
      (Tag.make "Blue" "en-us" (some "colors") "en-us" true (some "B") none).id :=
  c3_output_avoids_attached_ids
    [Tag.make "Blue" "en-us" (some "colors") "en-us" true (some "B") none]
    [Tag.make "Red" "en-us" (some "colors") "en-us" true (some "R") none] []
    (Tag.make "Red" "en-us" (some "colors") "en-us" true (some "R") none) (by decide)
    (Tag.make "Blue" "en-us" (some "colors") "en-us" true (some "B") none) (by decide)

/-- C4 counterexample: tag locale en-us and viewer locale EN-US denote the
same locale after case normalization, yet the computed preference is 3, not 1:
only the tag locale is lower-cased, so the comparison is not case-insensitive
in the viewer locale. -/
theorem c4_counterexample_mixed_case_viewer :
    (Tag.make "Sales" "en-us" (some "skills") "EN-US" true none none).preference = 3 ∧
    jsToLower "en-us" = jsToLower "EN-US" ∧ (3 : Nat) ≠ 1 :=
  ⟨rfl, rfl, by decide⟩

/-- C4 amended: for every locale pair the computed rank is 1 when the
lower-cased tag locale equals the viewer locale as given, 2 when their
language subtags match under the same one-sided normalization, 3 otherwise;
the comparison is case-insensitive only in the tag locale. -/
theorem c4_amended_preference_rank (name lcid : String) (scope : Option String)
    (userlcid : String) (persisted : Bool) (tagId recordId : Option String) :
    (Tag.make name lcid scope userlcid persisted tagId recordId).preference =
      amendedPreferenceRank lcid userlcid := by
  by_cases h1 : jsToLower lcid = userlcid
  · simp [Tag.make, Tag.CalculatePreference, amendedPreferenceRank, h1]
  · by_cases h2 : jsSplitHead (jsToLower lcid) = jsSplitHead userlcid
    · simp [Tag.make, Tag.CalculatePreference, amendedPreferenceRank, h1, h2]
    · simp [Tag.make, Tag.CalculatePreference, amendedPreferenceRank, h1, h2]

/-- C9 counterexample: two candidates with absent identifiers and distinct
names, empty attached set.  The second candidate has a name not yet in the
result list, yet it is dropped, because strict equality holds between its
absent id and the absent id of the entry already appended. -/
theorem c9_counterexample_absent_ids_collide :
    c9FirstTag.id = none ∧ c9SecondTag.id = none ∧
    c9FirstTag.name ≠ c9SecondTag.name ∧
    ResolveStep [] [c9FirstTag, c9SecondTag] [] = [c9FirstTag] :=
  ⟨rfl, rfl, by decide, rfl⟩

/-- C9 amended: a candidate with an absent identifier is compared against the
growing result list by name and by identifier, where two absent identifiers
compare equal; it is appended when no attached tag and no result entry has an
absent identifier and its display name is not yet in the result list. -/
theorem c9_amended_absent_id_appended (added acc : List Tag) (item : Tag)
    (hid : item.id = none)
    (hadded : ∀ a ∈ added, a.id ≠ none)
    (hname : ∀ e ∈ acc, e.name ≠ item.name)
    (hacc : ∀ e ∈ acc, e.id ≠ none) :
    resolveFold added acc item = acc ++ [item] := by
  have h1 : added.find? (fun i => i.id == item.id) = none := by
    rw [List.find?_eq_none]
    intro a ha
    simp only [beq_iff_eq, hid]
    exact hadded a ha
  have h2 : acc.find? (fun e => e.name == item.name || e.id == item.id) = none := by
    rw [List.find?_eq_none]
    intro e he
    simp only [Bool.or_eq_true, beq_iff_eq, hid, not_or]
    exact ⟨hname e he, hacc e he⟩
  unfold resolveFold
  rw [h1, h2]
  simp

/-- Witness for the amended C9: a concrete id-less candidate is appended to a
result list whose single entry has a present id and a different name. -/
theorem c9_amended_absent_id_appended_witness :
    resolveFold [] [Tag.make "Alpha" "en-us" (some "s") "en-us" true (some "A") none]
        (Tag.make "Beta" "en-us" (some "s") "en-us" true none none) =
      [Tag.make "Alpha" "en-us" (some "s") "en-us" true (some "A") none,
        Tag.make "Beta" "en-us" (some "s") "en-us" true none none] :=
  c9_amended_absent_id_appended []
    [Tag.make "Alpha" "en-us" (some "s") "en-us" true (some "A") none]
    (Tag.make "Beta" "en-us" (some "s") "en-us" true none none)
    rfl (by intro a ha; exact absurd ha (List.not_mem_nil a))
    (by decide) (by decide)

theorem ensureMetadata_of_some (b : Backend) (s : ServiceState) (esn : String)
    (h : s.entitySetName = some esn) :
    TagManagerService.ensureMetadata b s =
      { state := s, calls := [], result := Except.ok () } := by
  unfold TagManagerService.ensureMetadata
  rw [if_neg]
  simp [h]

/-- C5 (code bug): the backend holds a tag whose name, scope and locale all
equal the requested ones, yet Add with no id still creates a fresh record:
the lookup queries the JavaScript global window.name instead of the tagName
parameter, and its filter matches the lower-cased name only, ignoring scope
and locale (contradicting the doc comments of GetByName and Add). -/
theorem c5_add_creates_despite_exact_match :
    (∃ r ∈ readyBackend.tags, r.eax_name = "sales" ∧ r.eax_scope = readyState.scope ∧
      r.eax_languagelcid = readyState.languageLCID) ∧
    BackendCall.createTag "sales" "skills" ∈
      (TagManagerService.Add readyBackend readyState "sales" none).calls ∧
    (TagManagerService.Add readyBackend readyState "sales" none).result =
      Except.ok { Tag.make "sales" "en-us" (some "skills") "en-us" false
                    (some "T9") (some "R1") with persisted := true } :=
  ⟨by decide, by decide, rfl⟩

/-- C6: when the lookup finds no existing tag, Add creates the tag record and
then resolves the viewer-locale language record; when that resolution returns
no row, Add fails with a wrapped error and the attached set is unchanged. -/
theorem c6_add_fails_when_language_missing (b : Backend) (s : ServiceState)
    (tagName esn : String)
    (hmeta : s.entitySetName = some esn)
    (hlookup : b.tags.filter (fun r => r.eax_name == jsToLower s.windowName) = [])
    (hcreate : ¬ b.createTagResult.getD "" = "")
    (hlang : b.languages.filter (fun r => r.eax_lcid == s.languageLCID) = []) :
    (TagManagerService.Add b s tagName none).result =
      Except.error (.service "ErrTagCreationRelationshipKey"
        (.custom "ErrTagCreatedLCIDNotFoundKey")) ∧
    (TagManagerService.Add b s tagName none).state.addedTags = s.addedTags ∧
    BackendCall.createTag tagName s.scope ∈
      (TagManagerService.Add b s tagName none).calls := by
  have hstep := ensureMetadata_of_some b s esn hmeta
  simp only [TagManagerService.Add, hstep, TagManagerService.GetByName,
    TagManagerService.Create, TagManagerService.GetLanguageByLCID,
    hlookup, hlang, hcreate, List.take_nil, if_neg hcreate]
  simp

/-- Witness for C6 at a concrete input: the ready state against a backend
with no language rows. -/
theorem c6_add_fails_when_language_missing_witness :
    (TagManagerService.Add { readyBackend with languages := [] } readyState
        "sales" none).result =
      Except.error (.service "ErrTagCreationRelationshipKey"
        (.custom "ErrTagCreatedLCIDNotFoundKey")) ∧
    (TagManagerService.Add { readyBackend with languages := [] } readyState
        "sales" none).state.addedTags = readyState.addedTags ∧
    BackendCall.createTag "sales" readyState.scope ∈
      (TagManagerService.Add { readyBackend with languages := [] } readyState
        "sales" none).calls :=
  c6_add_fails_when_language_missing { readyBackend with languages := [] }
    readyState "sales" "accounts" rfl rfl (by decide) rfl

/-- C7 counterexample: when the attached set is still null before the call,
SearchByName initializes it, so the set is not left unchanged: afterwards it
holds the fetched (here empty) list. -/
theorem c7_counterexample_null_attached_set :
    ({ readyState with addedTags := none } : ServiceState).addedTags = none ∧
    (TagManagerService.SearchByName readyBackend
      { readyState with addedTags := none } "ab").state.addedTags = some [] :=
  ⟨rfl, rfl⟩

/-- C7 amended: for every input string and every prior state whose attached
set is initialized (not null), SearchByName leaves the attached set unchanged;
the set is assigned only when it was still null. -/
theorem c7_search_keeps_nonnull_set (b : Backend) (s : ServiceState)
    (name : String) (l : List Tag) (h : s.addedTags = some l) :
    (TagManagerService.SearchByName b s name).state.addedTags = some l := by
  simp only [TagManagerService.SearchByName, h]

/-- Witness for the amended C7 at a concrete input. -/
theorem c7_search_keeps_nonnull_set_witness :
    (TagManagerService.SearchByName readyBackend readyState "ab").state.addedTags =
      some [] :=
  c7_search_keeps_nonnull_set readyBackend readyState "ab" [] rfl

/-- C8: for every tag id, present in the attached set or not, when the record
id is set, the metadata is already resolved and the DELETE responds with some
status, Remove issues the link-removal call, the attached set afterwards
contains no entry with that id (the filter is a no-op when the id was
absent), and the returned boolean is whether the status was 204. -/
theorem c8_remove_always_deletes_and_filters (b : Backend) (s : ServiceState)
    (tid eid esn : String) (l : List Tag) (st : Nat)
    (hent : s.entityId = some eid)
    (hset : s.entitySetName = some esn)
    (hadded : s.addedTags = some l)
    (hdel : b.deleteResponse = Except.ok st) :
    BackendCall.deleteRef esn eid (s.manyToManyRelationshipName.getD "undefined") tid ∈
      (TagManagerService.Remove b s (some tid)).calls ∧
    (TagManagerService.Remove b s (some tid)).state.addedTags =
      some (l.filter (fun i => i.id != some tid)) ∧
    (∀ t ∈ l.filter (fun i => i.id != some tid), t.id ≠ some tid) ∧
    (TagManagerService.Remove b s (some tid)).result = Except.ok (st == 204) := by
  have hstep := ensureMetadata_of_some b s esn hset
  refine ⟨?_, ?_, ?_, ?_⟩
  · simp [TagManagerService.Remove, hent, hstep, hdel, hadded, hset]
  · simp [TagManagerService.Remove, hent, hstep, hdel, hadded]
  · intro t ht
    have h2 := (List.mem_filter.mp ht).2
    simpa [bne_iff_ne] using h2
  · simp [TagManagerService.Remove, hent, hstep, hdel, hadded]

/-- Witness for C8 at a concrete input: removing an id that is not in the
attached set; the call is issued, the set is unchanged by the no-op filter,
and the outcome is true. -/
theorem c8_remove_always_deletes_and_filters_witness :
    BackendCall.deleteRef "accounts" "R1"
        (c8State.manyToManyRelationshipName.getD "undefined") "Z" ∈
      (TagManagerService.Remove readyBackend c8State (some "Z")).calls ∧
    (TagManagerService.Remove readyBackend c8State (some "Z")).state.addedTags =
      some ([c8OldTag].filter (fun i => i.id != some "Z")) ∧
    (∀ t ∈ [c8OldTag].filter (fun i => i.id != some "Z"), t.id ≠ some "Z") ∧
    (TagManagerService.Remove readyBackend c8State (some "Z")).result =
      Except.ok ((204 : Nat) == 204) :=
  c8_remove_always_deletes_and_filters readyBackend c8State "Z" "R1" "accounts"
    [c8OldTag] 204 rfl rfl rfl rfl

/-- C10: when the DELETE call fails with a transport error, Remove raises a
wrapped TagManagerServiceError and the attached set is exactly as before the
call: the filter runs only after a successful backend response. -/
theorem c10_remove_transport_error_keeps_set (b : Backend) (s : ServiceState)
    (tid eid esn : String)
    (hent : s.entityId = some eid)
    (hset : s.entitySetName = some esn)
    (hdel : b.deleteResponse = Except.error ()) :
    (TagManagerService.Remove b s (some tid)).result =
      Except.error (.service "ErrTagRemovalKey" .transport) ∧
    (TagManagerService.Remove b s (some tid)).state.addedTags = s.addedTags := by
  have hstep := ensureMetadata_of_some b s esn hset
  simp [TagManagerService.Remove, hent, hstep, hdel]

/-- Witness for C10 at a concrete input: the DELETE rejects, the error is the
wrapped service error, and the attached set still holds its single tag. -/
theorem c10_remove_transport_error_keeps_set_witness :
    (TagManagerService.Remove { readyBackend with deleteResponse := Except.error () }
        c8State (some "X")).result =
      Except.error (.service "ErrTagRemovalKey" .transport) ∧
    (TagManagerService.Remove { readyBackend with deleteResponse := Except.error () }
        c8State (some "X")).state.addedTags = c8State.addedTags :=
  c10_remove_transport_error_keeps_set
    { readyBackend with deleteResponse := Except.error () } c8State "X" "R1"
    "accounts" rfl rfl rfl

end TagInput
